import Mathlib

/-!
Shallow embedding of the condition evaluator, risk scoring engine, advisor and
trend aggregator of `Backend/engine/risk_engine.py` and `Backend/engine/advisor.py`.

Modelling conventions:
* Python numbers (int/float/bool) are modelled as `ℚ`; the evaluator performs no
  arithmetic, so exact rationals are a faithful model of the comparisons and of
  the weight/score arithmetic.  Python `bool` is a subclass of `int`
  (`True == 1`, `False == 0`), so boolean values are embedded as `num 1`/`num 0`.
* Condition strings are modelled by their `ast.parse` result: either a syntax
  error (`Cond.invalid`) or a parsed expression tree (`Cond.parsed`).  The tree
  mirrors the Python `ast` node kinds inspected by `_safe_eval_condition`
  (`BoolOp`, `UnaryOp`, `Compare`, `Name`, `Constant`), and collapses every node
  kind rejected by the final catch-all (`Call`, `Attribute`, `Subscript`,
  `BinOp`, ...) into the tagged leaf `Expr.other`: `eval_node` raises on such a
  node before ever visiting its children, so the children are unobservable.
* Exceptions become `Except PyErr`.  `ConditionError` (the taxonomy
  InvalidSyntax / UnknownField / UnsupportedConstruct of the spec) is
  `PyErr.conditionError`; Python `TypeError` raised by an order comparison
  between incompatible operand types (e.g. `5 < "a"`) is `PyErr.typeError`;
  Python `ValueError` raised by `float()` on a non-numeric string is
  `PyErr.valueError`.  `float()` applied to a numeric string such as `"12.5"`
  succeeds in Python; string-to-float parsing is not modelled, so theorems about
  contexts restrict the `height_cm`/`weight_kg` fields to numeric values.
* Python dicts are association lists with unique keys; `dict.get`/`[]=` are
  `List.lookup` and `dict_set`.
-/

/-- Comparison operators of `ast.Compare`.  The six whitelisted operators of
`_ALLOWED_COMPARE_OPS` get their own constructors; every other `ast.cmpop`
(`In`, `NotIn`, `Is`, `IsNot`) is `otherCmp` and hits the
`raise ConditionError("Unsupported comparison operator")` branch. -/
inductive CmpOp
  | gt
  | gte
  | lt
  | lte
  | eq
  | ne
  | otherCmp
deriving Repr, DecidableEq

/-- Unary operators of `ast.UnaryOp`.  Only `Not` is evaluated
(risk_engine.py:50-51); `USub`/`UAdd`/`Invert` fall through to the catch-all
`raise ConditionError("Unsupported expression in condition: ...")`. -/
inductive UnaryKind
  | notOp
  | uSub
  | uAdd
  | invert
deriving Repr, DecidableEq

/-- Node kinds rejected by the catch-all at risk_engine.py:86-87.  `binOp`
covers `ast.BinOp`, i.e. both arithmetic and string concatenation (`+`, `-`,
`*`, ...); `otherNode` stands for any further ast node kind (lambda,
comprehension, collection literal, ...).  `eval_node` raises before visiting the
children of such a node, so the children are not modelled. -/
inductive OtherKind
  | call
  | attribute
  | subscript
  | binOp
  | otherNode
deriving Repr, DecidableEq

/-- A Python scalar value appearing in contexts and conditions.  Numbers
(int/float/bool) are `num`; strings are `str`.  Python booleans compare as the
integers 1 and 0. -/
inductive Value
  | num (q : ℚ)
  | str (s : String)
deriving Repr, DecidableEq

mutual
/-- The expression tree produced by `ast.parse(condition, mode="eval")`, as
inspected by `eval_node` (risk_engine.py:39-87).  The `ast.Expression` wrapper
(risk_engine.py:40-41) merely unwraps to its body and is not represented.
`boolAnd`/`boolOr` are `ast.BoolOp` with `And`/`Or` (the only operators the
Python grammar produces, so the dead "Unsupported boolean operator" branch has
no constructor).  `constOther` is an `ast.Constant` whose value is not
int/float/bool/str (e.g. `None`), rejected at risk_engine.py:84. -/
inductive Expr
  | boolAnd (values : ExprList)
  | boolOr (values : ExprList)
  | unaryOp (op : UnaryKind) (operand : Expr)
  | compare (left : Expr) (pairs : PairList)
  | name (id : String)
  | const (v : Value)
  | constOther
  | other (k : OtherKind)
deriving Repr

/-- The `values` list of an `ast.BoolOp` node. -/
inductive ExprList
  | nil
  | cons (e : Expr) (rest : ExprList)
deriving Repr

/-- The zipped `ops`/`comparators` lists of an `ast.Compare` node
(risk_engine.py:56 zips them). -/
inductive PairList
  | nil
  | cons (op : CmpOp) (comp : Expr) (rest : PairList)
deriving Repr
end

/-- The result of `ast.parse(condition, mode="eval")` on a condition string:
either a `SyntaxError` (re-raised as `ConditionError`, risk_engine.py:34-37) or
a parsed tree. -/
inductive Cond
  | invalid
  | parsed (body : Expr)
deriving Repr

/-- The kinds of `ConditionError` raised by `_safe_eval_condition`, matching the
spec taxonomy: `parseFailure` is InvalidSyntax (risk_engine.py:37),
`unknownField` is UnknownField (risk_engine.py:78), and the three
`unsupported...` kinds are UnsupportedConstruct (risk_engine.py:71,84,87). -/
inductive CondErrKind
  | parseFailure
  | unknownField (id : String)
  | unsupportedCmpOp
  | unsupportedConstant
  | unsupportedExpression
deriving Repr, DecidableEq

/-- Python exceptions observable from the engine code: `conditionError` is the
`ConditionError` subclass of `ValueError` defined at risk_engine.py:15-16;
`typeError` is the `TypeError` Python raises for an order comparison between a
string and a number; `valueError` is the `ValueError` from `float()` on a
non-numeric string. -/
inductive PyErr
  | conditionError (k : CondErrKind)
  | typeErr
  | valueErr
deriving Repr, DecidableEq

/-- Whether an exception is caught by the `except ConditionError` handlers at
risk_engine.py:150-151 and advisor.py:55-56. -/
def PyErr.isConditionError : PyErr → Bool
  | .conditionError _ => true
  | _ => false

/-- An evaluation context: a Python dict from field name to scalar value. -/
abbrev Ctx := List (String × Value)

/-- Python truthiness `bool(v)` for the scalar values in play: a number is truthy
iff nonzero, a string iff nonempty. -/
def truthy : Value → Bool
  | .num q => q != 0
  | .str s => s != ""

/-- A Python `bool` as a value: `True` is the integer 1 and `False` the
integer 0. -/
def boolVal (b : Bool) : Value := .num (if b then 1 else 0)

/-- Python `==` on scalar values: numbers compare numerically (booleans included,
`True == 1`), strings compare by content, and a number never equals a string. -/
def value_eq : Value → Value → Bool
  | .num a, .num b => a == b
  | .str a, .str b => a == b
  | _, _ => false

/-- One comparison step of the loop at risk_engine.py:58-71: the whitelisted
operator applied to `left_val`/`right_val`.  Order comparisons between a number
and a string raise `TypeError` in Python; `==`/`!=` never raise.  The fallback
`else` branch (risk_engine.py:70-71) raises
`ConditionError("Unsupported comparison operator")`. -/
def py_cmp : CmpOp → Value → Value → Except PyErr Bool
  | .gt, .num a, .num b => .ok (b < a)
  | .gt, .str a, .str b => .ok (b < a)
  | .gt, _, _ => .error .typeErr
  | .gte, .num a, .num b => .ok (b ≤ a)
  | .gte, .str a, .str b => .ok (b ≤ a)
  | .gte, _, _ => .error .typeErr
  | .lt, .num a, .num b => .ok (a < b)
  | .lt, .str a, .str b => .ok (a < b)
  | .lt, _, _ => .error .typeErr
  | .lte, .num a, .num b => .ok (a ≤ b)
  | .lte, .str a, .str b => .ok (a ≤ b)
  | .lte, _, _ => .error .typeErr
  | .eq, a, b => .ok (value_eq a b)
  | .ne, a, b => .ok (!value_eq a b)
  | .otherCmp, _, _ => .error (.conditionError .unsupportedCmpOp)

mutual
/-- `eval_node` of `_safe_eval_condition` (risk_engine.py:39-87).  `BoolOp`
nodes evaluate via short-circuiting `all`/`any` over the truthiness of their
operands; `not` negates truthiness; `Compare` runs the chained-comparison loop;
`Name` resolves against the context or raises UnknownField; supported constants
evaluate to themselves; everything else raises a `ConditionError`. -/
def evalNode (context : Ctx) : Expr → Except PyErr Value
  | .boolAnd values =>
    match evalAll context values with
    | .error e => .error e
    | .ok b => .ok (boolVal b)
  | .boolOr values =>
    match evalAny context values with
    | .error e => .error e
    | .ok b => .ok (boolVal b)
  | .unaryOp .notOp operand =>
    match evalNode context operand with
    | .error e => .error e
    | .ok v => .ok (boolVal (!truthy v))
  | .unaryOp _ _ => .error (.conditionError .unsupportedExpression)
  | .compare left pairs =>
    match evalNode context left with
    | .error e => .error e
    | .ok leftVal =>
      match evalChain context leftVal true pairs with
      | .error e => .error e
      | .ok result => .ok (boolVal result)
  | .name id =>
    match context.lookup id with
    | some v => .ok v
    | none => .error (.conditionError (.unknownField id))
  | .const v => .ok v
  | .constOther => .error (.conditionError .unsupportedConstant)
  | .other _ => .error (.conditionError .unsupportedExpression)

/-- `all(bool(eval_node(v)) for v in node.values)` (risk_engine.py:45): a lazy
generator, so `all` stops at the first falsy operand. -/
def evalAll (context : Ctx) : ExprList → Except PyErr Bool
  | .nil => .ok true
  | .cons v rest =>
    match evalNode context v with
    | .error e => .error e
    | .ok val => if truthy val then evalAll context rest else .ok false

/-- `any(bool(eval_node(v)) for v in node.values)` (risk_engine.py:47): stops at
the first truthy operand. -/
def evalAny (context : Ctx) : ExprList → Except PyErr Bool
  | .nil => .ok false
  | .cons v rest =>
    match evalNode context v with
    | .error e => .error e
    | .ok val => if truthy val then .ok true else evalAny context rest

/-- The chained-comparison loop at risk_engine.py:55-74: `result` starts `True`;
for each `(op, comp)` pair the comparator is evaluated, the comparison is
applied to the running `left_val`, `result = result and ok`, and `left_val`
becomes the comparator just evaluated.  There is no short-circuit: a later
comparator is still evaluated after an earlier pairwise failure. -/
def evalChain (context : Ctx) (leftVal : Value) (result : Bool) :
    PairList → Except PyErr Bool
  | .nil => .ok result
  | .cons op comp rest =>
    match evalNode context comp with
    | .error e => .error e
    | .ok rightVal =>
      match py_cmp op leftVal rightVal with
      | .error e => .error e
      | .ok ok => evalChain context rightVal (result && ok) rest
end

/-- `_safe_eval_condition(condition, context)` (risk_engine.py:22-90): parse the
condition (a `SyntaxError` becomes `ConditionError`, modelled by
`Cond.invalid`), evaluate the tree, and coerce the final value with `bool()`. -/
def safe_eval_condition (cond : Cond) (context : Ctx) : Except PyErr Bool :=
  match cond with
  | .invalid => .error (.conditionError .parseFailure)
  | .parsed body =>
    match evalNode context body with
    | .error e => .error e
    | .ok v => .ok (truthy v)

/-- The `try: ok = _safe_eval_condition(...) except ConditionError: ok = False`
blocks at risk_engine.py:148-151 and advisor.py:53-56: a `ConditionError` is
converted to "rule did not match"; any other exception propagates. -/
def eval_or_false (cond : Cond) (context : Ctx) : Except PyErr Bool :=
  match safe_eval_condition cond context with
  | .ok b => .ok b
  | .error e => if e.isConditionError then .ok false else .error e

/-- A row of the loaded rules table (columns disease/signal/condition/weight;
`load_rules` coerces the weight with `pd.to_numeric(...).fillna(0.0)`, so after
loading it is an arbitrary float). -/
structure Rule where
  disease : String
  signal : String
  condition : Cond
  weight : ℚ
deriving Repr

/-- An entry of the `matched` list built at risk_engine.py:155-161. -/
structure MatchedRule where
  signal : String
  condition : Cond
  weight : ℚ
deriving Repr

/-- The `RiskResult` dataclass (risk_engine.py:93-97). -/
structure RiskResult where
  disease : String
  score : ℚ
  matched_rules : List MatchedRule
deriving Repr

/-- `RiskEngine.compute_bmi` (risk_engine.py:120-125). -/
def compute_bmi (height_cm weight_kg : ℚ) : ℚ :=
  if height_cm ≤ 0 then 0
  else weight_kg / ((height_cm / 100) * (height_cm / 100))

/-- `metrics.get(key) or 0`: the value when present and truthy, otherwise the
number 0 (a missing key yields `None`, and `None`, `0`, `""`, `False` are all
falsy). -/
def get_or_zero (m : Ctx) (k : String) : Value :=
  match m.lookup k with
  | some v => if truthy v then v else .num 0
  | none => .num 0

/-- Python `float(v)`.  A number converts to itself.  `float` on a string
parses numeric literals and raises `ValueError` otherwise; string parsing is
not modelled, so every string argument is treated as the `ValueError` case
(theorems therefore restrict height/weight fields to numeric values). -/
def py_float : Value → Except PyErr ℚ
  | .num q => .ok q
  | .str _ => .error .valueErr

/-- Python `d[k] = v` on a dict: replace the value if the key is present
(keeping its position), otherwise append the new key at the end. -/
def dict_set (m : Ctx) (k : String) (v : Value) : Ctx :=
  match m with
  | [] => [(k, v)]
  | (k0, v0) :: rest =>
    if k0 = k then (k0, v) :: rest else (k0, v0) :: dict_set rest k v

/-- Lines 130-136 of `compute_risks`: convert `height_cm`/`weight_kg`, compute
the BMI, copy the caller's dict (`context = dict(metrics)`) and set
`context["bmi"]`.  The copy is what keeps the caller's `metrics` unchanged. -/
def build_context (metrics : Ctx) : Except PyErr Ctx :=
  match py_float (get_or_zero metrics "height_cm") with
  | .error e => .error e
  | .ok height_cm =>
    match py_float (get_or_zero metrics "weight_kg") with
    | .error e => .error e
    | .ok weight_kg =>
      .ok (dict_set metrics "bmi" (.num (compute_bmi height_cm weight_kg)))

/-- `max(0.0, min(100.0, x))` (risk_engine.py:163). -/
def clamp_0_100 (x : ℚ) : ℚ := max 0 (min 100 x)

/-- The distinct elements of a list, first occurrences kept in order. -/
def distinct_first : List String → List String
  | [] => []
  | x :: rest =>
    if x ∈ rest then
      if x ∈ distinct_first rest then distinct_first rest else x :: distinct_first rest
    else x :: distinct_first rest

/-- Insert a string into a sorted list (insertion sort step). -/
def insert_sorted (s : String) : List String → List String
  | [] => [s]
  | t :: rest => if s ≤ t then s :: t :: rest else t :: insert_sorted s rest

/-- Sort a list of strings lexicographically. -/
def sort_strings (l : List String) : List String := l.foldr insert_sorted []

/-- The group keys of `rules.groupby("disease")`: pandas iterates the distinct
keys in sorted order. -/
def sorted_diseases (rules : List Rule) : List String :=
  sort_strings (distinct_first (rules.map (fun r => r.disease)))

/-- The rows of one groupby group, in source-table order. -/
def group_rules (rules : List Rule) (disease : String) : List Rule :=
  rules.filter (fun r => r.disease == disease)

/-- `float(group["weight"].sum())` for one group. -/
def group_total_weight (group : List Rule) : ℚ :=
  (group.map (fun r => r.weight)).sum

/-- `float(group["weight"].sum()) or 1.0` (risk_engine.py:141): a zero sum is
falsy and is replaced by 1.0. -/
def effective_total_weight (group : List Rule) : ℚ :=
  if group_total_weight group = 0 then 1 else group_total_weight group

/-- The per-rule loop at risk_engine.py:145-161: evaluate each condition with
the `ConditionError`-to-`False` conversion, accumulate `earned` and the
`matched` list.  Any exception that is not a `ConditionError` propagates and
aborts the whole scoring call. -/
def score_group (context : Ctx) :
    List Rule → ℚ → List MatchedRule → Except PyErr (ℚ × List MatchedRule)
  | [], earned, matched => .ok (earned, matched)
  | r :: rest, earned, matched =>
    match eval_or_false r.condition context with
    | .error e => .error e
    | .ok ok =>
      if ok then
        score_group context rest (earned + r.weight)
          (matched ++ [⟨r.signal, r.condition, r.weight⟩])
      else
        score_group context rest earned matched

/-- The groupby loop at risk_engine.py:140-164, iterating the sorted disease
keys and producing the `results` dict entries in that order. -/
def risks_loop (context : Ctx) (rules : List Rule) :
    List String → Except PyErr (List (String × RiskResult))
  | [] => .ok []
  | disease :: rest =>
    match score_group context (group_rules rules disease) 0 [] with
    | .error e => .error e
    | .ok (earned, matched) =>
      match risks_loop context rules rest with
      | .error e => .error e
      | .ok restResults =>
        let score_pct :=
          clamp_0_100 (earned / effective_total_weight (group_rules rules disease) * 100)
        .ok ((disease, ⟨disease, score_pct, matched⟩) :: restResults)

/-- The value computed (or the exception raised) by
`RiskEngine.compute_risks(metrics)` (risk_engine.py:127-166), with the loaded
rules table passed explicitly. -/
def compute_risks_result (rules : List Rule) (metrics : Ctx) :
    Except PyErr (List (String × RiskResult)) :=
  match build_context metrics with
  | .error e => .error e
  | .ok context => risks_loop context rules (sorted_diseases rules)

/-- `RiskEngine.compute_risks` together with the caller's `metrics` dict as it
stands after the call.  The code copies the dict (`context = dict(metrics)`,
risk_engine.py:135) before adding the derived `"bmi"` key, so the caller's
mapping comes back exactly as it went in; had the code instead mutated
`metrics`, the second component would be `dict_set metrics "bmi" ...`. -/
def compute_risks (rules : List Rule) (metrics : Ctx) :
    Except PyErr (List (String × RiskResult)) × Ctx :=
  (compute_risks_result rules metrics, metrics)

/-- `RiskEngine.bucket_risk` (risk_engine.py:168-174). -/
def bucket_risk (score_pct : ℚ) : String :=
  if score_pct < 35 then "low"
  else if score_pct < 70 then "medium"
  else "high"

/-- One value of the dict returned by `compute_risk_snapshot`
(risk_engine.py:180-185). -/
structure SnapshotEntry where
  scorePct : ℚ
  score : ℚ
  level : String
  matchedSignals : List String
deriving Repr

/-- `RiskEngine.compute_risk_snapshot` (risk_engine.py:176-186), again paired
with the caller's `metrics` dict after the call. -/
def compute_risk_snapshot (rules : List Rule) (metrics : Ctx) :
    Except PyErr (List (String × SnapshotEntry)) × Ctx :=
  match compute_risks_result rules metrics with
  | .error e => (.error e, metrics)
  | .ok results =>
    (.ok (results.map (fun p =>
      (p.1, ⟨p.2.score, p.2.score / 100, bucket_risk p.2.score,
        p.2.matched_rules.map (fun m => m.signal)⟩))), metrics)

/-- A row of the loaded advice table (columns disease/condition/advice,
advisor.py:20-27). -/
structure AdviceRule where
  disease : String
  condition : Cond
  advice : String
deriving Repr

/-- The inner row loop of `Advisor.get_advice` (advisor.py:49-59) over the rows
of one disease, appending `{"disease": ..., "advice": ...}` for each matching
condition; the rows are the already-filtered `disease_df`. -/
def advice_group_loop (context : Ctx) (disease : String) :
    List AdviceRule → Except PyErr (List (String × String))
  | [] => .ok []
  | r :: rest =>
    match eval_or_false r.condition context with
    | .error e => .error e
    | .ok ok =>
      match advice_group_loop context disease rest with
      | .error e => .error e
      | .ok items => .ok (if ok then (disease, r.advice) :: items else items)

/-- The outer loop of `Advisor.get_advice` (advisor.py:43-59): snapshot entries
whose `level` is neither `"medium"` nor `"high"` are skipped; for the others the
advice rows of that disease are evaluated.  Each snapshot entry is modelled by
its `(disease, level)` pair, the only fields the code reads
(`payload.get("level", "low")`). -/
def advice_snapshot_loop (df : List AdviceRule) (context : Ctx) :
    List (String × String) → Except PyErr (List (String × String))
  | [] => .ok []
  | (disease, level) :: rest =>
    if level = "medium" ∨ level = "high" then
      match advice_group_loop context disease
          (df.filter (fun r => r.disease == disease)) with
      | .error e => .error e
      | .ok items =>
        match advice_snapshot_loop df context rest with
        | .error e => .error e
        | .ok more => .ok (items ++ more)
    else advice_snapshot_loop df context rest

/-- The deduplication loop at advisor.py:61-69, with `uniq` as accumulator; the
`seen` set of `(disease, advice)` keys holds exactly the entries already in
`uniq`, because an item is identical to its key pair. -/
def dedup_go (uniq : List (String × String)) :
    List (String × String) → List (String × String)
  | [] => uniq
  | item :: rest =>
    if item ∈ uniq then dedup_go uniq rest else dedup_go (uniq ++ [item]) rest

/-- Deduplicate while preserving order (advisor.py:61-71). -/
def dedup_first (out : List (String × String)) : List (String × String) :=
  dedup_go [] out

/-- `Advisor.get_advice(risk_snapshot, metrics_context)` (advisor.py:34-71),
with the loaded advice table passed explicitly. -/
def get_advice (df : List AdviceRule) (snapshot : List (String × String))
    (context : Ctx) : Except PyErr (List (String × String)) :=
  match advice_snapshot_loop df context snapshot with
  | .error e => .error e
  | .ok out => .ok (dedup_first out)

/-- Python `str(v)` for the scalar values in play.  Number formatting is
approximated by Lean's rational printing (Python would print `130.0` where this
prints `130`); no claim depends on the rendered text of a number. -/
def py_str : Value → String
  | .num q => toString q
  | .str s => s

/-- `rec.get(k, default)`. -/
def get_default (m : Ctx) (k : String) (d : Value) : Value :=
  match m.lookup k with
  | some v => v
  | none => d

/-- The result dict of `compute_trend_data` (risk_engine.py:225-236): the
`timestamps` list, the six series of the `metrics` sub-dict, and the
`riskEvolution` dict. -/
structure TrendData where
  timestamps : List String
  sugar : List ℚ
  bpSystolic : List ℚ
  bpDiastolic : List ℚ
  hba1c : List ℚ
  cholesterol : List ℚ
  bmi : List ℚ
  riskEvolution : List (String × List ℚ)
deriving Repr

/-- `disease_series.setdefault(disease, []).append(x)` (risk_engine.py:220):
append to the existing series, or add a new key at the end of the dict. -/
def append_series (m : List (String × List ℚ)) (k : String) (x : ℚ) :
    List (String × List ℚ) :=
  match m with
  | [] => [(k, [x])]
  | (k0, xs) :: rest =>
    if k0 = k then (k0, xs ++ [x]) :: rest else (k0, xs) :: append_series rest k x

/-- The per-record update of `disease_series` (risk_engine.py:219-220),
iterating the `risks` dict in its insertion order. -/
def append_risk_series (m : List (String × List ℚ)) :
    List (String × RiskResult) → List (String × List ℚ)
  | [] => m
  | (disease, rr) :: rest => append_risk_series (append_series m disease (rr.score / 100)) rest

/-- The per-record body of the `for rec in records` loop
(risk_engine.py:205-220), threading the accumulated series. -/
def trend_step (rules : List Rule) (acc : TrendData) (rec : Ctx) :
    Except PyErr TrendData :=
  let ts := py_str (get_default rec "timestamp" (.str ""))
  match py_float (get_or_zero rec "sugar_mgdl") with
  | .error e => .error e
  | .ok sugar =>
  match py_float (get_or_zero rec "bp_systolic") with
  | .error e => .error e
  | .ok bpSys =>
  match py_float (get_or_zero rec "bp_diastolic") with
  | .error e => .error e
  | .ok bpDia =>
  match py_float (get_or_zero rec "hba1c_pct") with
  | .error e => .error e
  | .ok hba1c =>
  match py_float (get_or_zero rec "cholesterol_mgdl") with
  | .error e => .error e
  | .ok chol =>
  match py_float (get_or_zero rec "height_cm") with
  | .error e => .error e
  | .ok height_cm =>
  match py_float (get_or_zero rec "weight_kg") with
  | .error e => .error e
  | .ok weight_kg =>
  match compute_risks_result rules rec with
  | .error e => .error e
  | .ok risks =>
    .ok ⟨acc.timestamps ++ [ts], acc.sugar ++ [sugar], acc.bpSystolic ++ [bpSys],
      acc.bpDiastolic ++ [bpDia], acc.hba1c ++ [hba1c], acc.cholesterol ++ [chol],
      acc.bmi ++ [compute_bmi height_cm weight_kg],
      append_risk_series acc.riskEvolution risks⟩

/-- The `for rec in records` loop of `compute_trend_data`. -/
def trend_loop (rules : List Rule) (acc : TrendData) :
    List Ctx → Except PyErr TrendData
  | [] => .ok acc
  | rec :: rest =>
    match trend_step rules acc rec with
    | .error e => .error e
    | .ok acc2 => trend_loop rules acc2 rest

/-- The rebuild at risk_engine.py:223:
`disease_series = {k: disease_series.get(k, []) for k in sorted(disease_series.keys())}`. -/
def sort_series (m : List (String × List ℚ)) : List (String × List ℚ) :=
  (sort_strings (m.map (fun p => p.1))).map (fun k => (k, (m.lookup k).getD []))

/-- `compute_trend_data(records, risk_engine)` (risk_engine.py:189-236), with
the engine's loaded rules table passed explicitly. -/
def compute_trend_data (records : List Ctx) (rules : List Rule) :
    Except PyErr TrendData :=
  match trend_loop rules ⟨[], [], [], [], [], [], [], []⟩ records with
  | .error e => .error e
  | .ok acc =>
    .ok ⟨acc.timestamps, acc.sugar, acc.bpSystolic, acc.bpDiastolic, acc.hba1c,
      acc.cholesterol, acc.bmi, sort_series acc.riskEvolution⟩

/-- A node-shape probe for the containment checks below: either a bare name with
a given identifier, or an unsupported node of a given kind. -/
inductive Probe
  | pname (id : String)
  | pother (k : OtherKind)
deriving Repr, DecidableEq

mutual
/-- Whether a parsed tree contains a node matching the probe (the children of
unsupported nodes are not represented, see `OtherKind`). -/
def expr_contains (p : Probe) : Expr → Bool
  | .boolAnd values => elist_contains p values
  | .boolOr values => elist_contains p values
  | .unaryOp _ operand => expr_contains p operand
  | .compare left pairs => expr_contains p left || plist_contains p pairs
  | .name id =>
    match p with
    | .pname target => target == id
    | _ => false
  | .const _ => false
  | .constOther => false
  | .other k =>
    match p with
    | .pother target => target == k
    | _ => false

/-- Containment over a `BoolOp` operand list. -/
def elist_contains (p : Probe) : ExprList → Bool
  | .nil => false
  | .cons e rest => expr_contains p e || elist_contains p rest

/-- Containment over the comparator list of a `Compare` node. -/
def plist_contains (p : Probe) : PairList → Bool
  | .nil => false
  | .cons _ comp rest => expr_contains p comp || plist_contains p rest
end

/-- Spec-side description of chained comparison: given the value of the first
operand and the values of the successive comparators, every pairwise comparison,
taken left to right with the left operand of each pair being the previous
comparator, succeeds and holds (`a < b < c` is `a<b and b<c`). -/
def chain_all_hold : Value → PairList → List Value → Prop
  | _, .nil, [] => True
  | left, .cons op _ rest, v :: vs =>
    py_cmp op left v = .ok true ∧ chain_all_hold v rest vs
  | _, .nil, _ :: _ => False
  | _, .cons _ _ _, [] => False

/-- The comparator operands of a chain each evaluate in the context to the
corresponding value of the list (the claim's "operands resolvable in the
context"). -/
def pairs_operands_eval (context : Ctx) : PairList → List Value → Prop
  | .nil, [] => True
  | .cons _ comp rest, v :: vs =>
    evalNode context comp = .ok v ∧ pairs_operands_eval context rest vs
  | .nil, _ :: _ => False
  | .cons _ _ _, [] => False


/-! ### Helper lemmas -/

theorem truthy_boolVal (b : Bool) : truthy (boolVal b) = b := by
  cases b <;> simp [truthy, boolVal]

theorem clamp_0_100_nonneg (x : ℚ) : 0 ≤ clamp_0_100 x := le_max_left 0 _

theorem clamp_0_100_le (x : ℚ) : clamp_0_100 x ≤ 100 :=
  max_le (by norm_num) (min_le_left 100 x)

theorem lookup_dict_set_ne (m : Ctx) (k k' : String) (v : Value) (h : k' ≠ k) :
    (dict_set m k v).lookup k' = m.lookup k' := by
  have hbeq : (k' == k) = false := beq_eq_false_iff_ne.mpr h
  induction m with
  | nil => simp [dict_set, List.lookup, hbeq]
  | cons p rest ih =>
    obtain ⟨k0, v0⟩ := p
    by_cases hk : k0 = k
    · subst hk
      simp [dict_set, List.lookup, hbeq]
    · simp only [dict_set, if_neg hk, List.lookup]
      cases hbeq0 : k' == k0 <;> simp [ih]

theorem eval_or_false_error (cond : Cond) (context : Ctx) (e : PyErr)
    (h : eval_or_false cond context = .error e) : e.isConditionError = false := by
  unfold eval_or_false at h
  cases hs : safe_eval_condition cond context with
  | ok b => simp only [hs] at h; exact Except.noConfusion h
  | error e' =>
    simp only [hs] at h
    by_cases hc : e'.isConditionError = true
    · simp only [if_pos hc] at h
      exact Except.noConfusion h
    · simp only [if_neg hc, Except.error.injEq] at h
      subst h
      simpa using hc

theorem score_group_error (context : Ctx) (g : List Rule) :
    ∀ (earned : ℚ) (matched : List MatchedRule) (e : PyErr),
    score_group context g earned matched = .error e → e.isConditionError = false := by
  induction g with
  | nil => intro earned matched e h; exact Except.noConfusion h
  | cons r rest ih =>
    intro earned matched e h
    unfold score_group at h
    cases hev : eval_or_false r.condition context with
    | error e' =>
      simp only [hev, Except.error.injEq] at h
      subst h
      exact eval_or_false_error r.condition context e' hev
    | ok ok =>
      simp only [hev] at h
      by_cases hok : ok = true
      · rw [if_pos hok] at h
        exact ih _ _ _ h
      · rw [if_neg hok] at h
        exact ih _ _ _ h

theorem risks_loop_error (context : Ctx) (rules : List Rule) :
    ∀ (ds : List String) (e : PyErr),
    risks_loop context rules ds = .error e → e.isConditionError = false := by
  intro ds
  induction ds with
  | nil => intro e h; exact Except.noConfusion h
  | cons d rest ih =>
    intro e h
    unfold risks_loop at h
    cases hsg : score_group context (group_rules rules d) 0 [] with
    | error e' =>
      simp only [hsg, Except.error.injEq] at h
      subst h
      exact score_group_error context (group_rules rules d) 0 [] e' hsg
    | ok p =>
      obtain ⟨earned, matched⟩ := p
      simp only [hsg] at h
      cases hrl : risks_loop context rules rest with
      | error e' =>
        simp only [hrl, Except.error.injEq] at h
        subst h
        exact ih e' hrl
      | ok restResults => simp only [hrl] at h; exact Except.noConfusion h

theorem py_float_error (v : Value) (e : PyErr) (h : py_float v = .error e) :
    e.isConditionError = false := by
  cases v with
  | num q => exact Except.noConfusion h
  | str s =>
    simp only [py_float, Except.error.injEq] at h
    subst h
    rfl

theorem build_context_error (metrics : Ctx) (e : PyErr)
    (h : build_context metrics = .error e) : e.isConditionError = false := by
  unfold build_context at h
  cases hh : py_float (get_or_zero metrics "height_cm") with
  | error e' =>
    simp only [hh, Except.error.injEq] at h
    subst h
    exact py_float_error _ e' hh
  | ok height_cm =>
    simp only [hh] at h
    cases hw : py_float (get_or_zero metrics "weight_kg") with
    | error e' =>
      simp only [hw, Except.error.injEq] at h
      subst h
      exact py_float_error _ e' hw
    | ok weight_kg => simp only [hw] at h; exact Except.noConfusion h

theorem compute_risks_error (rules : List Rule) (metrics : Ctx) (e : PyErr)
    (h : compute_risks_result rules metrics = .error e) : e.isConditionError = false := by
  unfold compute_risks_result at h
  cases hb : build_context metrics with
  | error e' =>
    simp only [hb, Except.error.injEq] at h
    subst h
    exact build_context_error metrics e' hb
  | ok context =>
    simp only [hb] at h
    exact risks_loop_error context rules (sorted_diseases rules) e h

theorem advice_group_loop_error (context : Ctx) (disease : String)
    (rows : List AdviceRule) :
    ∀ e : PyErr, advice_group_loop context disease rows = .error e →
      e.isConditionError = false := by
  induction rows with
  | nil => intro e h; exact Except.noConfusion h
  | cons r rest ih =>
    intro e h
    unfold advice_group_loop at h
    cases hev : eval_or_false r.condition context with
    | error e' =>
      simp only [hev, Except.error.injEq] at h
      subst h
      exact eval_or_false_error r.condition context e' hev
    | ok ok =>
      simp only [hev] at h
      cases hrest : advice_group_loop context disease rest with
      | error e' =>
        simp only [hrest, Except.error.injEq] at h
        subst h
        exact ih e' hrest
      | ok items => simp only [hrest] at h; exact Except.noConfusion h

theorem advice_snapshot_loop_error (df : List AdviceRule) (context : Ctx) :
    ∀ (snapshot : List (String × String)) (e : PyErr),
    advice_snapshot_loop df context snapshot = .error e → e.isConditionError = false := by
  intro snapshot
  induction snapshot with
  | nil => intro e h; exact Except.noConfusion h
  | cons p rest ih =>
    obtain ⟨disease, level⟩ := p
    intro e h
    unfold advice_snapshot_loop at h
    by_cases hl : level = "medium" ∨ level = "high"
    · rw [if_pos hl] at h
      cases hg : advice_group_loop context disease
          (df.filter (fun r => r.disease == disease)) with
      | error e' =>
        simp only [hg, Except.error.injEq] at h
        subst h
        exact advice_group_loop_error context disease _ e' hg
      | ok items =>
        simp only [hg] at h
        cases hrest : advice_snapshot_loop df context rest with
        | error e' =>
          simp only [hrest, Except.error.injEq] at h
          subst h
          exact ih e' hrest
        | ok more => simp only [hrest] at h; exact Except.noConfusion h
    · rw [if_neg hl] at h
      exact ih e h

theorem get_advice_error (df : List AdviceRule) (snapshot : List (String × String))
    (context : Ctx) (e : PyErr) (h : get_advice df snapshot context = .error e) :
    e.isConditionError = false := by
  unfold get_advice at h
  cases hs : advice_snapshot_loop df context snapshot with
  | error e' =>
    simp only [hs, Except.error.injEq] at h
    subst h
    exact advice_snapshot_loop_error df context snapshot e' hs
  | ok out => simp only [hs] at h; exact Except.noConfusion h

/-! ### Claim theorems -/

/-- Claim C5 (confirmed): `bucket_risk` maps a score to a level with the fixed
boundaries: every score below 35 is "low", every score in [35, 70) is "medium",
every score at or above 70 is "high"; in particular 34.999 is low, 35.0 medium,
69.999 medium and 70.0 high. -/
theorem bucket_risk_boundaries :
    (∀ s : ℚ, s < 35 → bucket_risk s = "low") ∧
    (∀ s : ℚ, 35 ≤ s → s < 70 → bucket_risk s = "medium") ∧
    (∀ s : ℚ, 70 ≤ s → bucket_risk s = "high") ∧
    bucket_risk (34999 / 1000) = "low" ∧ bucket_risk 35 = "medium" ∧
    bucket_risk (69999 / 1000) = "medium" ∧ bucket_risk 70 = "high" := by
  refine ⟨?_, ?_, ?_, ?_, ?_, ?_, ?_⟩
  · intro s h
    simp [bucket_risk, h]
  · intro s h1 h2
    rw [bucket_risk, if_neg (by linarith), if_pos h2]
  · intro s h
    rw [bucket_risk, if_neg (by linarith), if_neg (by linarith)]
  · norm_num [bucket_risk]
  · norm_num [bucket_risk]
  · norm_num [bucket_risk]
  · norm_num [bucket_risk]

/-- Witness for C5 at concrete scores 20, 50 and 80. -/
theorem bucket_risk_boundaries_witness :
    bucket_risk 20 = "low" ∧ bucket_risk 50 = "medium" ∧ bucket_risk 80 = "high" :=
  ⟨bucket_risk_boundaries.1 20 (by norm_num),
   bucket_risk_boundaries.2.1 50 (by norm_num) (by norm_num),
   bucket_risk_boundaries.2.2.1 80 (by norm_num)⟩

/-- Claim C9 (confirmed): `compute_trend_data` on an empty record sequence
returns empty timestamp, raw-metric and bmi series and an empty per-category
risk-evolution map, whatever the rule table. -/
theorem trend_empty_records (rules : List Rule) :
    compute_trend_data [] rules = .ok ⟨[], [], [], [], [], [], [], []⟩ := rfl

/-- Claim C10 (confirmed): `compute_risks` (and `compute_risk_snapshot`) leave
the caller's metrics mapping unchanged — the code works on `dict(metrics)`, so
the caller's dict after the call is exactly the input — and the derived `bmi`
field lives only in the internal copy: the evaluation context built by
`build_context` agrees with the caller's mapping on every key other than
`"bmi"`. -/
theorem compute_risks_preserves_metrics :
    (∀ (rules : List Rule) (metrics : Ctx), (compute_risks rules metrics).2 = metrics) ∧
    (∀ (rules : List Rule) (metrics : Ctx),
      (compute_risk_snapshot rules metrics).2 = metrics) ∧
    (∀ (metrics context : Ctx), build_context metrics = .ok context →
      ∀ k : String, k ≠ "bmi" → context.lookup k = metrics.lookup k) := by
  refine ⟨fun rules metrics => rfl, ?_, ?_⟩
  · intro rules metrics
    unfold compute_risk_snapshot
    cases compute_risks_result rules metrics <;> rfl
  · intro metrics context h k hk
    unfold build_context at h
    cases hh : py_float (get_or_zero metrics "height_cm") with
    | error e => simp only [hh] at h; exact Except.noConfusion h
    | ok height_cm =>
      simp only [hh] at h
      cases hw : py_float (get_or_zero metrics "weight_kg") with
      | error e => simp only [hw] at h; exact Except.noConfusion h
      | ok weight_kg =>
        simp only [hw, Except.ok.injEq] at h
        subst h
        exact lookup_dict_set_ne metrics "bmi" k _ hk

/-- Witness for C10 at a concrete one-field metrics dict. -/
theorem compute_risks_preserves_metrics_witness :
    ([("x", Value.num 1), ("bmi", Value.num 0)] : Ctx).lookup "x" =
      ([("x", Value.num 1)] : Ctx).lookup "x" :=
  compute_risks_preserves_metrics.2.2 [("x", Value.num 1)]
    [("x", Value.num 1), ("bmi", Value.num 0)]
    (by rfl) "x" (by decide)

/-- Counterexample for claim C2: the claim says a condition whose parsed tree
contains a function call (or attribute access, subscript, arithmetic operator,
string concatenation) always fails with UnsupportedConstruct and never returns
a boolean.  But `or` short-circuits via `any(...)` over a lazy generator
(risk_engine.py:47), so the condition `1 or f(x)` — a tree containing a `Call`
node — evaluates to `True` without ever visiting the call. -/
theorem short_circuit_skips_call_node :
    expr_contains (.pother .call)
        (.boolOr (.cons (.const (.num 1)) (.cons (.other .call) .nil))) = true ∧
    safe_eval_condition
        (.parsed (.boolOr (.cons (.const (.num 1)) (.cons (.other .call) .nil)))) [] =
      .ok true := ⟨rfl, rfl⟩

/-- Claim C2 as amended: whenever evaluation actually reaches a function call,
attribute access, subscript, or binary-operator (arithmetic or string
concatenation) node, it fails with UnsupportedConstruct — in particular a
condition consisting of such a node fails for every context, and such a node is
never evaluated to a value; but a short-circuited `and`/`or` operand containing
one may be skipped, in which case the condition can still return a boolean. -/
theorem unsupported_node_eval_fails (context : Ctx) (k : OtherKind) :
    evalNode context (.other k) = .error (.conditionError .unsupportedExpression) ∧
    safe_eval_condition (.parsed (.other k)) context =
      .error (.conditionError .unsupportedExpression) := ⟨rfl, rfl⟩

/-- Counterexample for claim C4: the claim says a condition whose tree contains
a bare name absent from the context always fails with UnknownField.  But the
name may sit in a short-circuited `or` operand: `1 or x` over the empty context
evaluates to `True` even though `x` is unresolved. -/
theorem short_circuit_skips_unknown_name :
    expr_contains (.pname "x")
        (.boolOr (.cons (.const (.num 1)) (.cons (.name "x") .nil))) = true ∧
    (([] : Ctx).lookup "x") = none ∧
    safe_eval_condition
        (.parsed (.boolOr (.cons (.const (.num 1)) (.cons (.name "x") .nil)))) [] =
      .ok true := ⟨rfl, rfl, rfl⟩

/-- Claim C4 as amended: when evaluation reaches a bare name that is not a key
of the context, it fails with UnknownField for that name — it never defaults the
missing field or yields `False` — and a name that is present resolves to exactly
its context value; but a name inside a short-circuited `and`/`or` operand may
never be reached, in which case the condition can still evaluate. -/
theorem name_resolution_hard_fail (context : Ctx) (id : String)
    (h : context.lookup id = none) :
    evalNode context (.name id) = .error (.conditionError (.unknownField id)) ∧
    safe_eval_condition (.parsed (.name id)) context =
      .error (.conditionError (.unknownField id)) := by
  constructor
  · rw [evalNode, h]
  · rw [safe_eval_condition, evalNode, h]

/-- Witness for C4 (amended) at the empty context and the name "zzz". -/
theorem name_resolution_hard_fail_witness :
    evalNode [] (.name "zzz") = .error (.conditionError (.unknownField "zzz")) :=
  (name_resolution_hard_fail [] "zzz" rfl).1

theorem eval_chain_ok_iff (context : Ctx) :
    (pairs : PairList) → (vals : List Value) → (left : Value) → (acc : Bool) →
    pairs_operands_eval context pairs vals →
    (evalChain context left acc pairs = .ok true ↔
      (acc = true ∧ chain_all_hold left pairs vals))
  | .nil, [], left, acc, h => by simp [evalChain, chain_all_hold]
  | .nil, v :: vs, left, acc, h => absurd h (by simp [pairs_operands_eval])
  | .cons op comp rest, [], left, acc, h => absurd h (by simp [pairs_operands_eval])
  | .cons op comp rest, v :: vs, left, acc, h => by
    obtain ⟨hc, hrest⟩ := h
    rw [evalChain]
    simp only [hc]
    cases hcmp : py_cmp op left v with
    | error e =>
      simp only [hcmp]
      constructor
      · intro habs; exact Except.noConfusion habs
      · intro habs
        rw [chain_all_hold] at habs
        rw [hcmp] at habs
        exact Except.noConfusion habs.2.1
    | ok b =>
      simp only [hcmp]
      rw [eval_chain_ok_iff context rest vs v (acc && b) hrest]
      rw [chain_all_hold, hcmp]
      constructor
      · intro ⟨hab, hch⟩
        obtain ⟨ha, hb⟩ := Bool.and_eq_true_iff.mp hab
        exact ⟨ha, by rw [hb], hch⟩
      · intro ⟨ha, hok, hch⟩
        have hb : b = true := by injection hok
        exact ⟨by rw [ha, hb]; rfl, hch⟩

/-- Claim C3 (confirmed): for a chained comparison `a op1 b op2 c ...` whose
operands all resolve (the first operand evaluates to `v0` and the successive
comparators to `vals`), the condition evaluates to `True` iff every pairwise
comparison holds, taken left to right with the left operand of each pair being
the previous comparator (`a < b < c` is `a<b and b<c`). -/
theorem chained_comparison_semantics (context : Ctx) (e0 : Expr) (pairs : PairList)
    (v0 : Value) (vals : List Value)
    (h0 : evalNode context e0 = .ok v0)
    (hv : pairs_operands_eval context pairs vals) :
    safe_eval_condition (.parsed (.compare e0 pairs)) context = .ok true ↔
      chain_all_hold v0 pairs vals := by
  have hch := eval_chain_ok_iff context pairs vals v0 true hv
  rw [safe_eval_condition, evalNode]
  simp only [h0]
  cases hc : evalChain context v0 true pairs with
  | error e =>
    rw [hc] at hch
    simp only [hc]
    constructor
    · intro habs; exact Except.noConfusion habs
    · intro habs
      exact Except.noConfusion (hch.mpr ⟨rfl, habs⟩)
  | ok b =>
    rw [hc] at hch
    simp only [hc]
    rw [truthy_boolVal]
    constructor
    · intro hb
      have : b = true := by injection hb
      exact (hch.mp (by rw [this])).2
    · intro habs
      have := hch.mpr ⟨rfl, habs⟩
      have hb : b = true := by injection this
      rw [hb]

/-- Witness for C3 on the concrete chain `a < 2 < 3` with `a = 1`. -/
theorem chained_comparison_semantics_witness :
    safe_eval_condition
        (.parsed (.compare (.name "a")
          (.cons .lt (.const (.num 2)) (.cons .lt (.const (.num 3)) .nil))))
        [("a", .num 1)] = .ok true ↔
      chain_all_hold (.num 1)
        (.cons .lt (.const (.num 2)) (.cons .lt (.const (.num 3)) .nil))
        [.num 2, .num 3] :=
  chained_comparison_semantics [("a", .num 1)] (.name "a")
    (.cons .lt (.const (.num 2)) (.cons .lt (.const (.num 3)) .nil))
    (.num 1) [.num 2, .num 3] rfl ⟨rfl, rfl, trivial⟩

theorem risks_loop_mem (context : Ctx) (rules : List Rule) :
    ∀ (ds : List String) (res : List (String × RiskResult)),
    risks_loop context rules ds = .ok res →
    ∀ p ∈ res, ∃ (earned : ℚ) (matched : List MatchedRule),
      score_group context (group_rules rules p.1) 0 [] = .ok (earned, matched) ∧
      p.2 = ⟨p.1,
        clamp_0_100 (earned / effective_total_weight (group_rules rules p.1) * 100),
        matched⟩ := by
  intro ds
  induction ds with
  | nil =>
    intro res h p hp
    simp only [risks_loop, Except.ok.injEq] at h
    subst h
    exact absurd hp (List.not_mem_nil p)
  | cons d rest ih =>
    intro res h p hp
    unfold risks_loop at h
    cases hsg : score_group context (group_rules rules d) 0 [] with
    | error e => simp only [hsg] at h; exact Except.noConfusion h
    | ok q =>
      obtain ⟨earned, matched⟩ := q
      simp only [hsg] at h
      cases hrl : risks_loop context rules rest with
      | error e => simp only [hrl] at h; exact Except.noConfusion h
      | ok restResults =>
        simp only [hrl, Except.ok.injEq] at h
        subst h
        rcases List.mem_cons.mp hp with hhead | htail
        · subst hhead
          exact ⟨earned, matched, hsg, rfl⟩
        · exact ih restResults hrl p htail

/-- Claim C6 (confirmed): whenever `compute_risks` produces a result, the score
of every category entry lies in `[0, 100]`, whatever the rule weights — the
code clamps with `max(0.0, min(100.0, ...))`. -/
theorem score_pct_clamped (rules : List Rule) (metrics : Ctx)
    (res : List (String × RiskResult))
    (h : (compute_risks rules metrics).1 = .ok res) :
    ∀ p ∈ res, 0 ≤ p.2.score ∧ p.2.score ≤ 100 := by
  intro p hp
  have h' : compute_risks_result rules metrics = .ok res := h
  unfold compute_risks_result at h'
  cases hb : build_context metrics with
  | error e => simp only [hb] at h'; exact Except.noConfusion h'
  | ok context =>
    simp only [hb] at h'
    obtain ⟨earned, matched, _, hscore⟩ :=
      risks_loop_mem context rules (sorted_diseases rules) res h' p hp
    rw [hscore]
    exact ⟨clamp_0_100_nonneg _, clamp_0_100_le _⟩

/-- Witness for C6 on a one-rule table with a negative weight. -/
theorem score_pct_clamped_witness :
    0 ≤ (RiskResult.mk "d" 100 [⟨"s", Cond.parsed (.const (.num 1)), -5⟩]).score ∧
    (RiskResult.mk "d" 100 [⟨"s", Cond.parsed (.const (.num 1)), -5⟩]).score ≤ 100 :=
  score_pct_clamped [⟨"d", "s", .parsed (.const (.num 1)), -5⟩] []
    [("d", ⟨"d", 100, [⟨"s", .parsed (.const (.num 1)), -5⟩]⟩)]
    (by norm_num [compute_risks, compute_risks_result, build_context, get_or_zero,
      py_float, compute_bmi, dict_set, sorted_diseases, distinct_first, sort_strings,
      insert_sorted, risks_loop, group_rules, score_group, eval_or_false,
      safe_eval_condition, evalNode, truthy, boolVal, effective_total_weight,
      group_total_weight, clamp_0_100])
    ("d", ⟨"d", 100, [⟨"s", .parsed (.const (.num 1)), -5⟩]⟩)
    (List.mem_singleton.mpr rfl)

theorem weights_all_zero (g : List Rule) (hnonneg : ∀ r ∈ g, 0 ≤ r.weight)
    (hzero : group_total_weight g = 0) : ∀ r ∈ g, r.weight = 0 := by
  induction g with
  | nil => intro r hr; exact absurd hr (List.not_mem_nil r)
  | cons r0 rest ih =>
    have hsum : r0.weight + (rest.map (fun r => r.weight)).sum = 0 := by
      simpa [group_total_weight] using hzero
    have hrest_nonneg : 0 ≤ (rest.map (fun r => r.weight)).sum :=
      List.sum_nonneg (by
        intro x hx
        obtain ⟨r, hr, hrx⟩ := List.mem_map.mp hx
        exact hrx ▸ hnonneg r (List.mem_cons_of_mem r0 hr))
    have h0 : 0 ≤ r0.weight := hnonneg r0 (List.mem_cons_self r0 rest)
    have hr0 : r0.weight = 0 := by linarith
    have hrest : group_total_weight rest = 0 := by
      unfold group_total_weight; linarith
    intro r hr
    rcases List.mem_cons.mp hr with h | h
    · rw [h]; exact hr0
    · exact ih (fun r' hr' => hnonneg r' (List.mem_cons_of_mem r0 hr')) hrest r h

theorem score_group_zero_weights (context : Ctx) (g : List Rule)
    (hzw : ∀ r ∈ g, r.weight = 0) :
    ∀ (earned e' : ℚ) (matched m' : List MatchedRule),
    score_group context g earned matched = .ok (e', m') → e' = earned := by
  induction g with
  | nil =>
    intro earned e' matched m' h
    simp only [score_group, Except.ok.injEq, Prod.mk.injEq] at h
    exact h.1.symm
  | cons r rest ih =>
    intro earned e' matched m' h
    have hihw : ∀ r' ∈ rest, r'.weight = 0 :=
      fun r' hr' => hzw r' (List.mem_cons_of_mem r hr')
    unfold score_group at h
    cases hev : eval_or_false r.condition context with
    | error e => simp only [hev] at h; exact Except.noConfusion h
    | ok ok =>
      simp only [hev] at h
      by_cases hok : ok = true
      · rw [if_pos hok] at h
        have := ih hihw (earned + r.weight) e' _ m' h
        rw [this, hzw r (List.mem_cons_self r rest), add_zero]
      · rw [if_neg hok] at h
        exact ih hihw earned e' matched m' h

/-- Counterexample for claim C7: the claim says every category group whose rule
weights sum to zero scores 0.  With a positive and a negative weight summing to
zero, the matched positive-weight rule earns 5 while the zero total is replaced
by the divisor 1.0, so the category scores `clamp(5/1*100) = 100`, not 0. -/
theorem zero_total_weight_nonzero_score :
    group_total_weight (group_rules
      [⟨"d", "s1", .parsed (.const (.num 1)), 5⟩,
       ⟨"d", "s2", .parsed (.const (.num 0)), -5⟩] "d") = 0 ∧
    (compute_risks [⟨"d", "s1", .parsed (.const (.num 1)), 5⟩,
       ⟨"d", "s2", .parsed (.const (.num 0)), -5⟩] []).1 =
      .ok [("d", ⟨"d", 100, [⟨"s1", .parsed (.const (.num 1)), 5⟩]⟩)] ∧
    (100 : ℚ) ≠ 0 := by
  refine ⟨?_, ?_, by norm_num⟩
  · norm_num [group_rules, group_total_weight]
  · norm_num [compute_risks, compute_risks_result, build_context, get_or_zero,
      py_float, compute_bmi, dict_set, sorted_diseases, distinct_first, sort_strings,
      insert_sorted, risks_loop, group_rules, score_group, eval_or_false,
      safe_eval_condition, evalNode, truthy, boolVal, effective_total_weight,
      group_total_weight, clamp_0_100]

/-- Claim C7 as amended: a category group whose rule weights sum to zero never
raises a division-by-zero — the zero total is replaced by the divisor 1.0 — and
when the group's weights are in addition all nonnegative (so that they are all
zero, as the data model prescribes for weights), the category's score is 0. -/
theorem zero_total_weight_score (rules : List Rule) (metrics : Ctx)
    (res : List (String × RiskResult))
    (h : (compute_risks rules metrics).1 = .ok res)
    (p : String × RiskResult) (hp : p ∈ res)
    (hzero : group_total_weight (group_rules rules p.1) = 0)
    (hnonneg : ∀ r ∈ group_rules rules p.1, 0 ≤ r.weight) :
    p.2.score = 0 ∧ effective_total_weight (group_rules rules p.1) = 1 := by
  have heff : effective_total_weight (group_rules rules p.1) = 1 := by
    unfold effective_total_weight
    rw [if_pos hzero]
  have h' : compute_risks_result rules metrics = .ok res := h
  unfold compute_risks_result at h'
  cases hb : build_context metrics with
  | error e => simp only [hb] at h'; exact Except.noConfusion h'
  | ok context =>
    simp only [hb] at h'
    obtain ⟨earned, matched, hsg, hscore⟩ :=
      risks_loop_mem context rules (sorted_diseases rules) res h' p hp
    have hzw := weights_all_zero (group_rules rules p.1) hnonneg hzero
    have he : earned = 0 :=
      score_group_zero_weights context (group_rules rules p.1) hzw 0 earned [] matched hsg
    refine ⟨?_, heff⟩
    rw [hscore]
    show clamp_0_100 (earned / effective_total_weight (group_rules rules p.1) * 100) = 0
    rw [he, heff]
    norm_num [clamp_0_100]

/-- Witness for C7 (amended) on a one-rule group with weight 0. -/
theorem zero_total_weight_score_witness :
    (RiskResult.mk "d" 0 [⟨"s", Cond.parsed (.const (.num 1)), 0⟩]).score = 0 ∧
    effective_total_weight (group_rules
      [⟨"d", "s", .parsed (.const (.num 1)), 0⟩] "d") = 1 :=
  zero_total_weight_score [⟨"d", "s", .parsed (.const (.num 1)), 0⟩] []
    [("d", ⟨"d", 0, [⟨"s", .parsed (.const (.num 1)), 0⟩]⟩)]
    (by norm_num [compute_risks, compute_risks_result, build_context, get_or_zero,
      py_float, compute_bmi, dict_set, sorted_diseases, distinct_first, sort_strings,
      insert_sorted, risks_loop, group_rules, score_group, eval_or_false,
      safe_eval_condition, evalNode, truthy, boolVal, effective_total_weight,
      group_total_weight, clamp_0_100])
    ("d", ⟨"d", 0, [⟨"s", .parsed (.const (.num 1)), 0⟩]⟩)
    (List.mem_singleton.mpr rfl)
    (by norm_num [group_rules, group_total_weight])
    (by
      intro r hr
      simp only [group_rules, List.filter, beq_self_eq_true, List.mem_singleton] at hr
      rw [hr])

/-- Counterexample for claim C1: the claim says no condition evaluation failure
ever aborts the enclosing scoring or advice pass.  The `except ConditionError`
handlers catch only `ConditionError`; an order comparison between a number and a
string raises a plain `TypeError` during condition evaluation, which propagates
and aborts the whole pass: scoring the single rule `x > "a"` against
`{x: 5}` aborts `compute_risks`, and the same condition aborts `get_advice`. -/
theorem type_error_aborts_passes :
    (compute_risks
        [⟨"d", "s", .parsed (.compare (.name "x") (.cons .gt (.const (.str "a")) .nil)), 1⟩]
        [("x", .num 5)]).1 = .error .typeErr ∧
    get_advice
        [⟨"d", .parsed (.compare (.name "x") (.cons .gt (.const (.str "a")) .nil)), "advice"⟩]
        [("d", "high")] [("x", .num 5)] = .error .typeErr ∧
    safe_eval_condition
        (.parsed (.compare (.name "x") (.cons .gt (.const (.str "a")) .nil)))
        [("x", .num 5), ("bmi", .num 0)] = .error .typeErr := ⟨rfl, rfl, rfl⟩

/-- Claim C1 as amended: every per-condition `ConditionError` (InvalidSyntax,
UnknownField, UnsupportedConstruct) raised while evaluating a single rule's
condition during scoring or advice generation is caught locally and treated as
"rule did not match", and no `ConditionError` ever aborts the enclosing pass —
any abort of `compute_risks` or `get_advice` is caused by an exception that is
not a `ConditionError` (such as the `TypeError` of a mixed-type order
comparison, or the `ValueError` of a non-numeric height/weight field). -/
theorem condition_errors_caught_locally :
    (∀ (cond : Cond) (context : Ctx) (k : CondErrKind),
      safe_eval_condition cond context = .error (.conditionError k) →
      eval_or_false cond context = .ok false) ∧
    (∀ (rules : List Rule) (metrics : Ctx) (e : PyErr),
      (compute_risks rules metrics).1 = .error e → e.isConditionError = false) ∧
    (∀ (df : List AdviceRule) (snapshot : List (String × String)) (context : Ctx)
      (e : PyErr), get_advice df snapshot context = .error e →
      e.isConditionError = false) := by
  refine ⟨?_, ?_, ?_⟩
  · intro cond context k h
    unfold eval_or_false
    rw [h]
    rfl
  · intro rules metrics e h
    exact compute_risks_error rules metrics e h
  · intro df snapshot context e h
    exact get_advice_error df snapshot context e h

/-- Witness for C1 (amended): an UnknownField `ConditionError` on an evaluated
rule converts to "did not match", and the concrete aborting error of the
scoring/advice passes is not a `ConditionError`. -/
theorem condition_errors_caught_locally_witness :
    eval_or_false (.parsed (.name "zz")) [] = .ok false ∧
    PyErr.typeErr.isConditionError = false ∧
    PyErr.typeErr.isConditionError = false :=
  ⟨condition_errors_caught_locally.1 (.parsed (.name "zz")) [] (.unknownField "zz") rfl,
   condition_errors_caught_locally.2.1
     [⟨"d", "s", .parsed (.compare (.name "x") (.cons .gt (.const (.str "a")) .nil)), 1⟩]
     [("x", .num 5)] .typeErr rfl,
   condition_errors_caught_locally.2.2
     [⟨"d", .parsed (.compare (.name "x") (.cons .gt (.const (.str "a")) .nil)), "advice"⟩]
     [("d", "high")] [("x", .num 5)] .typeErr rfl⟩

theorem dedup_go_pairwise : (rest : List (String × String)) →
    ∀ uniq : List (String × String),
    uniq.Pairwise (· ≠ ·) → (dedup_go uniq rest).Pairwise (· ≠ ·)
  | [] => fun uniq h => by simpa [dedup_go] using h
  | x :: l => fun uniq h => by
    rw [dedup_go]
    by_cases hx : x ∈ uniq
    · rw [if_pos hx]
      exact dedup_go_pairwise l uniq h
    · rw [if_neg hx]
      refine dedup_go_pairwise l (uniq ++ [x]) ?_
      rw [List.pairwise_append]
      refine ⟨h, List.pairwise_singleton _ _, ?_⟩
      intro a ha b hb
      rw [List.mem_singleton] at hb
      subst hb
      intro hab
      exact hx (hab ▸ ha)

theorem dedup_go_sublist : (rest : List (String × String)) →
    ∀ uniq : List (String × String),
    ∃ s, dedup_go uniq rest = uniq ++ s ∧ s.Sublist rest
  | [] => fun uniq => ⟨[], by simp [dedup_go], List.nil_sublist []⟩
  | x :: l => fun uniq => by
    rw [dedup_go]
    by_cases hx : x ∈ uniq
    · rw [if_pos hx]
      obtain ⟨s, h1, h2⟩ := dedup_go_sublist l uniq
      exact ⟨s, h1, h2.cons x⟩
    · rw [if_neg hx]
      obtain ⟨s, h1, h2⟩ := dedup_go_sublist l (uniq ++ [x])
      refine ⟨x :: s, ?_, h2.cons₂ x⟩
      rw [h1, List.append_assoc]
      rfl

theorem dedup_go_mem : (rest : List (String × String)) →
    ∀ (uniq : List (String × String)) (x : String × String),
    (x ∈ uniq ∨ x ∈ rest) → x ∈ dedup_go uniq rest
  | [] => fun uniq x h => by
    rw [dedup_go]
    rcases h with h | h
    · exact h
    · exact absurd h (List.not_mem_nil x)
  | y :: l => fun uniq x h => by
    rw [dedup_go]
    by_cases hy : y ∈ uniq
    · rw [if_pos hy]
      refine dedup_go_mem l uniq x ?_
      rcases h with h | h
      · exact Or.inl h
      · rcases List.mem_cons.mp h with h | h
        · exact Or.inl (h ▸ hy)
        · exact Or.inr h
    · rw [if_neg hy]
      refine dedup_go_mem l (uniq ++ [y]) x ?_
      rcases h with h | h
      · exact Or.inl (List.mem_append_left _ h)
      · rcases List.mem_cons.mp h with h | h
        · exact Or.inl (List.mem_append_right _ (by rw [h]; exact List.mem_singleton_self y))
        · exact Or.inr h

theorem dedup_go_filter : (rest : List (String × String)) →
    ∀ uniq : List (String × String),
    dedup_go uniq rest = uniq ++ dedup_go [] (rest.filter (fun y => decide (y ∉ uniq)))
  | [] => fun uniq => by simp [dedup_go]
  | x :: l => fun uniq => by
    by_cases hx : x ∈ uniq
    · rw [dedup_go, if_pos hx, dedup_go_filter l uniq]
      have hfc : (x :: l).filter (fun y => decide (y ∉ uniq)) =
          l.filter (fun y => decide (y ∉ uniq)) := by
        simp [List.filter_cons, hx]
      rw [hfc]
    · rw [dedup_go, if_neg hx, dedup_go_filter l (uniq ++ [x])]
      have hfc : (x :: l).filter (fun y => decide (y ∉ uniq)) =
          x :: l.filter (fun y => decide (y ∉ uniq)) := by
        simp [List.filter_cons, hx]
      rw [hfc]
      rw [show dedup_go [] (x :: l.filter (fun y => decide (y ∉ uniq))) =
            dedup_go [x] (l.filter (fun y => decide (y ∉ uniq))) from by
        rw [dedup_go]
        simp]
      rw [dedup_go_filter (l.filter (fun y => decide (y ∉ uniq))) [x]]
      rw [List.filter_filter, List.append_assoc]
      have hfeq : (l.filter fun a => decide (a ∉ [x]) && decide (a ∉ uniq)) =
          l.filter (fun y => decide (y ∉ uniq ++ [x])) := by
        apply List.filter_congr
        intro y hy
        by_cases h1 : y ∈ uniq <;> by_cases h2 : y ∈ [x] <;>
          simp [List.mem_append, h1, h2]
      rw [hfeq]
termination_by rest => rest.length
decreasing_by
  · simp
  · simp
  · simp only [List.length_cons]
    exact Nat.lt_succ_of_le (List.length_filter_le _ l)

theorem dedup_first_cons (a : String × String) (l : List (String × String)) :
    dedup_first (a :: l) = a :: dedup_first (l.filter (fun y => decide (y ≠ a))) := by
  unfold dedup_first
  rw [dedup_go, if_neg (List.not_mem_nil a)]
  rw [show ([] ++ [a] : List (String × String)) = [a] from rfl]
  rw [dedup_go_filter l [a]]
  have hfeq : (l.filter fun y => decide (y ∉ [a])) = l.filter (fun y => decide (y ≠ a)) := by
    apply List.filter_congr
    intro y hy
    exact decide_eq_decide.mpr (by rw [List.mem_singleton])
  rw [hfeq]
  rfl

/-- Claim C8 (confirmed): the list returned by `get_advice` is the
first-occurrence deduplication of the raw match list: it has no two equal
`(category, advice)` entries, it is a sublist of the raw matches (so relative
order is preserved), it retains every raw match, and it satisfies the
first-occurrence recurrence — the head of the raw list is kept in place and its
later duplicates are dropped. -/
theorem get_advice_dedup (df : List AdviceRule) (snapshot : List (String × String))
    (context : Ctx) (out res : List (String × String))
    (hout : advice_snapshot_loop df context snapshot = .ok out)
    (h : get_advice df snapshot context = .ok res) :
    res = dedup_first out ∧
    res.Pairwise (· ≠ ·) ∧
    res.Sublist out ∧
    (∀ x ∈ out, x ∈ res) ∧
    dedup_first ([] : List (String × String)) = [] ∧
    (∀ (a : String × String) (l : List (String × String)),
      dedup_first (a :: l) = a :: dedup_first (l.filter (fun y => decide (y ≠ a)))) := by
  have hres : res = dedup_first out := by
    unfold get_advice at h
    simp only [hout, Except.ok.injEq] at h
    exact h.symm
  refine ⟨hres, ?_, ?_, ?_, rfl, dedup_first_cons⟩
  · rw [hres]
    exact dedup_go_pairwise out [] List.Pairwise.nil
  · rw [hres]
    obtain ⟨s, h1, h2⟩ := dedup_go_sublist out []
    unfold dedup_first
    rw [h1]
    simpa using h2
  · intro x hx
    rw [hres]
    exact dedup_go_mem out [] x (Or.inr hx)

/-- Witness for C8 on a snapshot that matches the same advice row twice. -/
theorem get_advice_dedup_witness :
    ([("d", "a")] : List (String × String)) = dedup_first [("d", "a"), ("d", "a")] ∧
    ([("d", "a")] : List (String × String)).Pairwise (· ≠ ·) ∧
    ([("d", "a")] : List (String × String)).Sublist [("d", "a"), ("d", "a")] :=
  let h := get_advice_dedup [⟨"d", .parsed (.const (.num 1)), "a"⟩]
    [("d", "high"), ("d", "medium")] [] [("d", "a"), ("d", "a")] [("d", "a")] rfl rfl
  ⟨h.1, h.2.1, h.2.2.1⟩

/-- Witness for C2 (amended): a condition that is a bare function-call node
fails with UnsupportedConstruct over the empty context. -/
theorem unsupported_node_eval_fails_witness :
    evalNode [] (.other .call) = .error (.conditionError .unsupportedExpression) :=
  (unsupported_node_eval_fails [] .call).1

/-- Witness for C9 at the empty rule table. -/
theorem trend_empty_records_witness :
    compute_trend_data [] [] = .ok ⟨[], [], [], [], [], [], [], []⟩ :=
  trend_empty_records []
